import Mathlib

/-!
Verification of the `bonsai` observable state container
(`src/examples/src/App.tsx`, class `Store` plus the hook factories
`createSelectorHook` and `createHook`).

The development has two models of the source:

* a flat operational model (`Store`, `runListener`, `emitLoop`, `update`,
  `subscribe`, `subscribeWithSelector`, `setValue`) in which the snapshot
  is a total map from field names to JavaScript values, the listener
  collection is the insertion-ordered list underlying the JS `Set`, and a
  broadcast produces an explicit event trace; and

* a heap model (`HState`, `hConstruct`, `hUpdate`, `hMutate`) in which
  snapshots are heap-allocated objects identified by references, used for
  the claims about object identity, copying and freshness of allocation.
-/

namespace Bonsai

/-- A JavaScript value as far as `Object.is` can distinguish values:
primitives by value (with `NaN` and the two signed zeroes as separate
cases), objects/arrays/functions by reference identity (`obj id`).
Finite nonzero numbers are represented by integers, which suffices for
every comparison the program performs. -/
inductive JSValue where
  | undef : JSValue
  | nullv : JSValue
  | bool : Bool → JSValue
  | nan : JSValue
  | posZero : JSValue
  | negZero : JSValue
  | int : Int → JSValue
  | str : String → JSValue
  | obj : Nat → JSValue
deriving DecidableEq, Repr

/-- `Object.is` (same-value equality), the comparison used at line 444 of
the source: identity for references, value equality for primitives, with
`Object.is(NaN, NaN) = true` and `Object.is(+0, -0) = false`.  On the
`JSValue` encoding this is exactly structural equality. -/
def objectIs (a b : JSValue) : Bool := a = b

/-- A snapshot of state shape `K`: a total assignment of a `JSValue` to
every declared field (the record view of the generic parameter `T`). -/
def Snap (K : Type) : Type := K → JSValue

/-- A patch (`Partial<T>`): fields present in the patch carry `some`,
absent fields carry `none`. -/
def Patch (K : Type) : Type := K → Option JSValue

/-- The spread merge `{ ...data, ...updates }` of line 454: a field
present in the patch overwrites the same-named field, an absent field is
preserved. -/
def shallowMerge {K : Type} (s : Snap K) (p : Patch K) : Snap K :=
  fun k => match p k with
  | some v => v
  | none => s k

/-- The container state.  `data` is the private `#data` field; `listeners`
is the insertion-ordered element list of the `#listeners` JS `Set`
(listeners are named by numeric identities); `memo` assigns to each
selector-subscription identity the `previousValue` held by its
`checkForChange` closure (lines 440-448).  The model is generic in the
snapshot type `D` so the same broadcast machinery applies to the flat
snapshot `Snap K` and to the heap model. -/
structure Store (D : Type) where
  data : D
  listeners : List Nat
  memo : Nat → JSValue

/-- What a consumer-supplied callback does when invoked.  The actions
cover the behaviours the claims exercise: doing nothing, throwing an
exception, and calling an unsubscribe function (deleting a listener from
the set). -/
inductive Action where
  | nop : Action
  | throwErr : Action
  | unsub : Nat → Action
deriving DecidableEq, Repr

/-- The code attached to a registered listener identity: either a raw
listener registered through `subscribe` directly, or the `checkForChange`
closure that `subscribeWithSelector` registers, carrying its selector and
its consumer listener's action. -/
inductive Behavior (D : Type) where
  | act : Action → Behavior D
  | check : (D → JSValue) → Action → Behavior D

/-- Assignment of behaviours to listener identities (the environment of
closures; a closure's code never changes once created). -/
def Env (D : Type) : Type := Nat → Behavior D

/-- Observable notification events: `invoke id` records the container
calling the registered listener `id` (line 460); `consume id` records a
`checkForChange` closure calling its consumer listener (line 446). -/
inductive Ev where
  | invoke : Nat → Ev
  | consume : Nat → Ev
deriving DecidableEq, Repr

/-- Result of running (part of) a broadcast: the event trace, the store
state afterwards, and whether an exception escaped.  On `threw = true`
the store state is the state at the moment of the throw (JS exceptions do
not roll anything back). -/
structure RunResult (D : Type) where
  trace : List Ev
  store : Store D
  threw : Bool

/-- Effect of one consumer action on the store. The Bool is `true` when
the action throws. -/
def runAction {D : Type} (a : Action) (w : Store D) : Store D × Bool :=
  match a with
  | .nop => (w, false)
  | .throwErr => (w, true)
  | .unsub t => ({ w with listeners := w.listeners.erase t }, false)

/-- Invocation of the single registered listener `id` during a broadcast.
A raw listener just runs its action.  A `checkForChange` closure
(lines 442-448) recomputes `currentValue = selector(this.#data)` against
the live `#data`, compares it with `previousValue` via `Object.is`, and on
inequality first updates `previousValue` and then calls the consumer. -/
def runListener {D : Type} (env : Env D) (id : Nat) (w : Store D) : RunResult D :=
  match env id with
  | .act a =>
      let r := runAction a w
      ⟨[.invoke id], r.1, r.2⟩
  | .check sel consumer =>
      let cur := sel w.data
      if objectIs (w.memo id) cur then ⟨[.invoke id], w, false⟩
      else
        let w1 : Store D := { w with memo := fun j => if j = id then cur else w.memo j }
        let r := runAction consumer w1
        ⟨[.invoke id, .consume id], r.1, r.2⟩

/-- The `#listeners.forEach` loop of `emitChange` (lines 458-462).  A JS
`Set.forEach` visits the elements in insertion order and skips elements
deleted before being visited; since no behaviour of this model inserts
listeners mid-broadcast, iterating over the element list captured at the
start and re-checking membership before each call is exactly the JS
semantics.  An exception aborts the loop and escapes. -/
def emitLoop {D : Type} (env : Env D) : List Nat → Store D → RunResult D
  | [], w => ⟨[], w, false⟩
  | id :: rest, w =>
      if id ∈ w.listeners then
        let r := runListener env id w
        if r.threw then ⟨r.trace, r.store, true⟩
        else
          let r2 := emitLoop env rest r.store
          ⟨r.trace ++ r2.trace, r2.store, r2.threw⟩
      else emitLoop env rest w

/-- `emitChange` (lines 458-462): iterate over the listener set. -/
def emitChange {D : Type} (env : Env D) (w : Store D) : RunResult D :=
  emitLoop env w.listeners w

/-- `getSnapshot` (lines 432-434). -/
def getSnapshot {D : Type} (w : Store D) : D := w.data

/-- `update` (lines 453-456) at the flat snapshot type: replace `#data`
with the spread merge, then `emitChange`. -/
def update {K : Type} (env : Env (Snap K)) (p : Patch K) (w : Store (Snap K)) :
    RunResult (Snap K) :=
  emitChange env { w with data := shallowMerge w.data p }

/-- `subscribe` (lines 427-430): `Set.add`, which appends a new element
and is a no-op on an element already present. -/
def subscribe {D : Type} (id : Nat) (w : Store D) : Store D :=
  { w with
    listeners := if id ∈ w.listeners then w.listeners else w.listeners ++ [id] }

/-- The unsubscribe function returned by `subscribe` (line 429):
`Set.delete`. -/
def unsubscribe {D : Type} (id : Nat) (w : Store D) : Store D :=
  { w with listeners := w.listeners.erase id }

/-- `subscribeWithSelector` (lines 436-451): initialise the closure's
`previousValue` to `selector(this.#data)` (line 440) and register the
`checkForChange` closure through `this.subscribe` (line 450).  The
closure's behaviour itself lives in the environment as
`Behavior.check sel consumer`. -/
def subscribeWithSelector {D : Type} (sel : D → JSValue) (id : Nat) (w : Store D) :
    Store D :=
  subscribe id { w with memo := fun j => if j = id then sel w.data else w.memo j }

/-- The `setValue` closure produced by `createHook` (lines 490-494): read
the snapshot that is current at call time, apply the setter to obtain a
patch, and pass that patch to `update`. -/
def setValue {K : Type} (env : Env (Snap K)) (setter : JSValue → Snap K → Patch K)
    (v : JSValue) (w : Store (Snap K)) : RunResult (Snap K) :=
  let currentState := getSnapshot w
  let updates := setter v currentState
  update env updates w

/-- Listener identities invoked by the container during a broadcast, in
order (the `invoke` events of a trace). -/
def invokedIds (t : List Ev) : List Nat :=
  t.filterMap fun e => match e with
  | .invoke i => some i
  | .consume _ => none

/-- Consumer notifications delivered to subscription `id` in a trace. -/
def consumeCount (id : Nat) (t : List Ev) : Nat :=
  t.count (Ev.consume id)

/-- A behaviour is calm when invoking it cannot throw and cannot modify
the listener set: a raw no-op listener or a `checkForChange` closure
whose consumer listener is a no-op. -/
def Behavior.calm {D : Type} : Behavior D → Bool
  | .act .nop => true
  | .check _ .nop => true
  | _ => false

/-- Run a sequence of `update` calls, keeping the store state of each
(exceptions aside, which leave the state at the throw point anyway). -/
def runUpdates {K : Type} (env : Env (Snap K)) (ps : List (Patch K))
    (w : Store (Snap K)) : Store (Snap K) :=
  ps.foldl (fun w p => (update env p w).store) w

/-! ## Heap model

Snapshots as heap objects, for the claims about object identity: the
constructor's copy `{ ...initialData }` (line 424) and the fresh object
`{ ...this.#data, ...updates }` built by `update` (line 454).  The heap
is a list of objects; a reference is an index into it; allocation
appends, so a fresh reference never equals an existing one. -/

/-- Read the object stored at reference `r` (fields all `undefined` for a
dangling reference, which valid executions never produce). -/
def hRead {K : Type} (h : List (Snap K)) (r : Nat) : Snap K :=
  h.getD r (fun _ => JSValue.undef)

/-- Heap-level container state: the shared heap and the reference held in
the private `#data` field. -/
structure HState (K : Type) where
  heap : List (Snap K)
  dataRef : Nat

/-- The constructor (lines 423-425): `this.#data = { ...initialData }` —
allocate a fresh object carrying a shallow copy of the fields of the
caller's object `initRef`. -/
def hConstruct {K : Type} (h : List (Snap K)) (initRef : Nat) : HState K :=
  ⟨h ++ [hRead h initRef], h.length⟩

/-- `update`'s snapshot replacement (line 454) in the heap model:
allocate a fresh object holding the shallow merge and repoint `#data` at
it; the previous snapshot object is left untouched. -/
def hUpdate {K : Type} (s : HState K) (p : Patch K) : HState K :=
  ⟨s.heap ++ [shallowMerge (hRead s.heap s.dataRef) p], s.heap.length⟩

/-- In-place mutation of the object at reference `r` (the external
mutation `callerObject.field = v` that the constructor's copy protects
against). -/
def hMutate {K : Type} [DecidableEq K] (s : HState K) (r : Nat) (k : K) (v : JSValue) :
    HState K :=
  { s with heap := s.heap.set r (fun k2 => if k2 = k then v else hRead s.heap r k2) }

/-- `update` on a heap-level container (lines 453-456): replace the
`#data` reference via `hUpdate`, then `emitChange`.  Selectors see the
heap-level state, so the identity selector `state => state` returns the
snapshot object reference itself, compared by `Object.is` as a
reference. -/
def hUpdateW {K : Type} (env : Env (HState K)) (p : Patch K) (w : Store (HState K)) :
    RunResult (HState K) :=
  emitChange env { w with data := hUpdate w.data p }

/-- The identity selector `state => state` at the heap level: its value
is the current snapshot object, identified for `Object.is` purposes by
its reference. -/
def idSelector {K : Type} : HState K → JSValue :=
  fun s => JSValue.obj s.dataRef

/-! ## Concrete scenario material

The example state shape `{count, step}` used by the spec's scenarios and
by `src/unnamed/part_000`. -/

/-- Field names of the example `CounterState`. -/
inductive CKey where
  | count : CKey
  | step : CKey
deriving DecidableEq, Repr

/-- The initial state `{count: 0, step: 1}`. -/
def counterInit : Snap CKey :=
  fun k => match k with
  | .count => .int 0
  | .step => .int 1

/-- The selector `s => s.count`. -/
def countSelector : Snap CKey → JSValue := fun s => s CKey.count

/-- The selector `s => s.step`. -/
def stepSelector : Snap CKey → JSValue := fun s => s CKey.step

/-- The setter `(v, _s) => ({count: v})`. -/
def countSetter : JSValue → Snap CKey → Patch CKey :=
  fun v _s k => match k with
  | .count => some v
  | .step => none

/-- A patch writing only `count`. -/
def countPatch (v : JSValue) : Patch CKey :=
  fun k => match k with
  | .count => some v
  | .step => none

/-- A patch writing only `step`. -/
def stepPatch (v : JSValue) : Patch CKey :=
  fun k => match k with
  | .count => none
  | .step => some v

/-- Environment with two selector subscriptions: listener 0 watches
`count`, listener 1 watches `step`, both with no-op consumers. -/
def counterEnv : Env (Snap CKey) :=
  fun id => match id with
  | 0 => .check countSelector .nop
  | 1 => .check stepSelector .nop
  | _ => .act .nop

/-- Store with both counter subscriptions registered on the initial
state, memos initialised the way `subscribeWithSelector` does. -/
def counterStore : Store (Snap CKey) :=
  subscribeWithSelector stepSelector 1
    (subscribeWithSelector countSelector 0 ⟨counterInit, [], fun _ => JSValue.undef⟩)

/-- Store with only the `count` subscription registered. -/
def countOnlyStore : Store (Snap CKey) :=
  subscribeWithSelector countSelector 0 ⟨counterInit, [], fun _ => JSValue.undef⟩

/-- Environment where raw listener 0 unsubscribes listener 2 when
invoked; everyone else is a no-op raw listener. -/
def unsubEnv : Env (Snap CKey) :=
  fun id => if id = 0 then .act (.unsub 2) else .act .nop

/-- Store with raw listeners 0 and 2 registered. -/
def unsubStore : Store (Snap CKey) :=
  ⟨counterInit, [0, 2], fun _ => JSValue.undef⟩

/-- Environment where raw listener 1 throws when invoked; everyone else
is a no-op raw listener. -/
def throwEnv : Env (Snap CKey) :=
  fun id => if id = 1 then .act .throwErr else .act .nop

/-- Store with raw listeners 0, 1 and 2 registered. -/
def throwStore : Store (Snap CKey) :=
  ⟨counterInit, [0, 1, 2], fun _ => JSValue.undef⟩

/-- Iterated heap-level snapshot replacement (a sequence of `update`
calls as far as the heap is concerned). -/
def hUpdates {K : Type} (s : HState K) (ps : List (Patch K)) : HState K :=
  ps.foldl hUpdate s

/-- Environment where listener 5 is a selector subscription with the
identity selector `state => state` and a no-op consumer. -/
def idEnv : Env (HState CKey) := fun _ => .check idSelector .nop

/-- Heap-level container whose snapshot lives at reference 0 of a
one-object heap, with the identity-selector subscription 5 registered
and its memo holding the current snapshot reference. -/
def idStore : Store (HState CKey) :=
  ⟨⟨[counterInit], 0⟩, [5], fun _ => JSValue.obj 0⟩

/-- Modelled from the spec: the §4.2 adapter algorithm's per-broadcast
step, written from the spec's words — compute `current =
selector(latestSnapshot)`, compare `previous` and `current` with
same-value equality, and if unequal set `previous = current` and report
that the consumer listener is to be invoked.  Returned as (new memo,
whether the consumer fires), to be compared against the behaviour of the
code's `checkForChange`. -/
def specCheckStep {D : Type} (sel : D → JSValue) (previous : JSValue) (d : D) :
    JSValue × Bool :=
  let current := sel d
  if objectIs previous current then (previous, false) else (current, true)

/-! ## Basic lemmas about actions, single invocations and broadcasts -/

theorem runAction_data {D : Type} (a : Action) (w : Store D) :
    (runAction a w).1.data = w.data := by
  cases a <;> rfl

theorem runAction_memo {D : Type} (a : Action) (w : Store D) :
    (runAction a w).1.memo = w.memo := by
  cases a <;> rfl

theorem runAction_sublist {D : Type} (a : Action) (w : Store D) :
    (runAction a w).1.listeners.Sublist w.listeners := by
  cases a with
  | nop => exact List.Sublist.refl _
  | throwErr => exact List.Sublist.refl _
  | unsub t => exact List.erase_sublist _ _

theorem invokedIds_append (t1 t2 : List Ev) :
    invokedIds (t1 ++ t2) = invokedIds t1 ++ invokedIds t2 :=
  List.filterMap_append ..

theorem runListener_data {D : Type} (env : Env D) (id : Nat) (w : Store D) :
    (runListener env id w).store.data = w.data := by
  unfold runListener
  cases env id with
  | act a => exact runAction_data a w
  | check sel c =>
      dsimp only
      split
      · rfl
      · exact runAction_data c _

theorem runListener_sublist {D : Type} (env : Env D) (id : Nat) (w : Store D) :
    (runListener env id w).store.listeners.Sublist w.listeners := by
  unfold runListener
  cases env id with
  | act a => exact runAction_sublist a w
  | check sel c =>
      dsimp only
      split
      · exact List.Sublist.refl _
      · exact runAction_sublist c _

theorem runListener_invokedIds {D : Type} (env : Env D) (id : Nat) (w : Store D) :
    invokedIds (runListener env id w).trace = [id] := by
  unfold runListener
  cases env id with
  | act a => rfl
  | check sel c =>
      dsimp only
      split
      · rfl
      · rfl

theorem emitLoop_data {D : Type} (env : Env D) (l : List Nat) (w : Store D) :
    (emitLoop env l w).store.data = w.data := by
  induction l generalizing w with
  | nil => rfl
  | cons id rest ih =>
      unfold emitLoop
      dsimp only
      split
      · split
        · exact runListener_data env id w
        · exact (ih _).trans (runListener_data env id w)
      · exact ih w

theorem emitLoop_sublist {D : Type} (env : Env D) (l : List Nat) (w : Store D) :
    (emitLoop env l w).store.listeners.Sublist w.listeners := by
  induction l generalizing w with
  | nil => exact List.Sublist.refl _
  | cons id rest ih =>
      unfold emitLoop
      dsimp only
      split
      · split
        · exact runListener_sublist env id w
        · exact (ih _).trans (runListener_sublist env id w)
      · exact ih w

theorem emitLoop_invoked_mem {D : Type} (env : Env D) (l : List Nat) (w : Store D) :
    ∀ i ∈ invokedIds (emitLoop env l w).trace, i ∈ l := by
  induction l generalizing w with
  | nil => intro i h; exact absurd h (by simp [emitLoop, invokedIds])
  | cons id rest ih =>
      intro i hi
      unfold emitLoop at hi
      dsimp only at hi
      by_cases hm : id ∈ w.listeners
      · simp only [if_pos hm] at hi
        by_cases ht : (runListener env id w).threw
        · simp only [if_pos ht] at hi
          rw [runListener_invokedIds] at hi
          simp only [List.mem_singleton] at hi
          exact hi ▸ List.mem_cons_self id rest
        · simp only [if_neg ht] at hi
          rw [invokedIds_append, runListener_invokedIds] at hi
          rcases List.mem_append.mp hi with h1 | h2
          · simp only [List.mem_singleton] at h1
            exact h1 ▸ List.mem_cons_self id rest
          · exact List.mem_cons_of_mem id (ih _ i h2)
      · simp only [if_neg hm] at hi
        exact List.mem_cons_of_mem id (ih w i hi)

theorem emitLoop_removed_not_invoked {D : Type} (env : Env D) (l : List Nat)
    (w : Store D) (b : Nat) (hb : b ∉ w.listeners) :
    b ∉ invokedIds (emitLoop env l w).trace := by
  induction l generalizing w with
  | nil => simp [emitLoop, invokedIds]
  | cons id rest ih =>
      unfold emitLoop
      dsimp only
      by_cases hm : id ∈ w.listeners
      · have hne : id ≠ b := fun h => hb (h ▸ hm)
        have hb' : b ∉ (runListener env id w).store.listeners := fun h =>
          hb ((runListener_sublist env id w).mem h)
        simp only [if_pos hm]
        by_cases ht : (runListener env id w).threw
        · simp only [if_pos ht]
          rw [runListener_invokedIds]
          simp [hne.symm]
        · simp only [if_neg ht]
          rw [invokedIds_append, runListener_invokedIds]
          intro hmem
          rcases List.mem_append.mp hmem with h1 | h2
          · have hbid : b = id := by simpa using h1
            exact hne hbid.symm
          · exact ih _ hb' h2
      · simp only [if_neg hm]
        exact ih w hb

theorem Behavior.calm_act {D : Type} {a : Action}
    (h : (Behavior.act (D := D) a).calm = true) : a = .nop := by
  cases a with
  | nop => rfl
  | throwErr => exact absurd h (by simp [Behavior.calm])
  | unsub t => exact absurd h (by simp [Behavior.calm])

theorem Behavior.calm_check {D : Type} {sel : D → JSValue} {c : Action}
    (h : (Behavior.check sel c).calm = true) : c = .nop := by
  cases c with
  | nop => rfl
  | throwErr => exact absurd h (by simp [Behavior.calm])
  | unsub t => exact absurd h (by simp [Behavior.calm])

theorem runListener_calm {D : Type} (env : Env D) (id : Nat) (w : Store D)
    (h : (env id).calm = true) :
    (runListener env id w).store.listeners = w.listeners ∧
      (runListener env id w).threw = false := by
  unfold runListener
  cases henv : env id with
  | act a =>
      rw [henv] at h
      rw [Behavior.calm_act h]
      exact ⟨rfl, rfl⟩
  | check sel c =>
      rw [henv] at h
      rw [Behavior.calm_check h]
      dsimp only
      split
      · exact ⟨rfl, rfl⟩
      · exact ⟨rfl, rfl⟩

theorem emitLoop_calm {D : Type} (env : Env D) (l : List Nat) (w : Store D)
    (hcalm : ∀ id ∈ l, (env id).calm = true)
    (hmem : ∀ id ∈ l, id ∈ w.listeners) :
    invokedIds (emitLoop env l w).trace = l ∧
      (emitLoop env l w).store.listeners = w.listeners ∧
      (emitLoop env l w).threw = false := by
  induction l generalizing w with
  | nil => exact ⟨rfl, rfl, rfl⟩
  | cons id rest ih =>
      have hm : id ∈ w.listeners := hmem id (List.mem_cons_self id rest)
      have hc : (env id).calm = true := hcalm id (List.mem_cons_self id rest)
      obtain ⟨hl, ht⟩ := runListener_calm env id w hc
      unfold emitLoop
      simp only [if_pos hm, ht, if_neg Bool.false_ne_true]
      obtain ⟨ih1, ih2, ih3⟩ := ih (runListener env id w).store
        (fun j hj => hcalm j (List.mem_cons_of_mem id hj))
        (fun j hj => hl ▸ hmem j (List.mem_cons_of_mem id hj))
      refine ⟨?_, ?_, ?_⟩
      · rw [invokedIds_append, runListener_invokedIds, ih1]
        rfl
      · rw [ih2, hl]
      · exact ih3

theorem emitLoop_append {D : Type} (env : Env D) (l1 l2 : List Nat) (w : Store D) :
    emitLoop env (l1 ++ l2) w =
      if (emitLoop env l1 w).threw then emitLoop env l1 w
      else
        ⟨(emitLoop env l1 w).trace ++ (emitLoop env l2 (emitLoop env l1 w).store).trace,
          (emitLoop env l2 (emitLoop env l1 w).store).store,
          (emitLoop env l2 (emitLoop env l1 w).store).threw⟩ := by
  induction l1 generalizing w with
  | nil => simp [emitLoop]
  | cons id rest ih =>
      by_cases hm : id ∈ w.listeners
      · by_cases ht : (runListener env id w).threw = true
        · simp only [List.cons_append, emitLoop, if_pos hm, if_pos ht]
          rw [if_pos trivial]
        · simp only [List.cons_append, emitLoop, if_pos hm, if_neg ht]
          rw [List.append_eq, ih]
          by_cases ht2 : (emitLoop env rest (runListener env id w).store).threw = true
          · simp [ht2]
          · simp [ht2, List.append_assoc]
      · simp only [List.cons_append, emitLoop, if_neg hm]
        exact ih w

theorem emitLoop_cons {D : Type} (env : Env D) (id : Nat) (rest : List Nat)
    (w : Store D) :
    emitLoop env (id :: rest) w =
      (if id ∈ w.listeners then
        (if (runListener env id w).threw then
          ⟨(runListener env id w).trace, (runListener env id w).store, true⟩
         else
          ⟨(runListener env id w).trace ++
              (emitLoop env rest (runListener env id w).store).trace,
            (emitLoop env rest (runListener env id w).store).store,
            (emitLoop env rest (runListener env id w).store).threw⟩)
       else emitLoop env rest w) := rfl

theorem emitLoop_calm_noThrow {D : Type} (env : Env D) (l : List Nat) (w : Store D)
    (hcalm : ∀ id ∈ l, (env id).calm = true) :
    (emitLoop env l w).store.listeners = w.listeners ∧
      (emitLoop env l w).threw = false := by
  induction l generalizing w with
  | nil => exact ⟨rfl, rfl⟩
  | cons id rest ih =>
      have hc : (env id).calm = true := hcalm id (List.mem_cons_self id rest)
      obtain ⟨hl, ht⟩ := runListener_calm env id w hc
      unfold emitLoop
      dsimp only
      by_cases hm : id ∈ w.listeners
      · simp only [if_pos hm, ht, if_neg Bool.false_ne_true]
        obtain ⟨ih1, ih2⟩ := ih (runListener env id w).store
          (fun j hj => hcalm j (List.mem_cons_of_mem id hj))
        exact ⟨ih1.trans hl, ih2⟩
      · simp only [if_neg hm]
        exact ih w (fun j hj => hcalm j (List.mem_cons_of_mem id hj))

theorem emitLoop_single_check {D : Type} (env : Env D) (i : Nat) (sel : D → JSValue)
    (w : Store D) (h : env i = .check sel .nop) (hl : w.listeners = [i]) :
    (emitLoop env w.listeners w).trace =
      (if objectIs (w.memo i) (sel w.data) then [Ev.invoke i]
       else [Ev.invoke i, Ev.consume i]) := by
  rw [hl]
  unfold emitLoop
  simp only [hl, List.mem_singleton, if_pos rfl]
  unfold runListener
  rw [h]
  dsimp only
  by_cases hc : objectIs (w.memo i) (sel w.data) = true
  · simp [hc, emitLoop]
  · simp [hc, emitLoop, runAction]

theorem runUpdates_not_mem {K : Type} (env : Env (Snap K)) (ps : List (Patch K))
    (w : Store (Snap K)) (id : Nat) (h : id ∉ w.listeners) :
    id ∉ (runUpdates env ps w).listeners := by
  induction ps generalizing w with
  | nil => exact h
  | cons p rest ih =>
      refine ih _ (fun hmem => h ?_)
      exact (emitLoop_sublist env _ _).mem hmem

theorem update_not_mem_not_invoked {K : Type} (env : Env (Snap K)) (p : Patch K)
    (w : Store (Snap K)) (id : Nat) (h : id ∉ w.listeners) :
    id ∉ invokedIds (update env p w).trace := by
  intro hmem
  exact h (emitLoop_invoked_mem env _ _ id hmem)

/-! ## Heap model lemmas -/

theorem hRead_alloc_last {K : Type} (h : List (Snap K)) (o : Snap K) :
    hRead (h ++ [o]) h.length = o := by
  simp [hRead]

theorem hRead_alloc_prev {K : Type} (h : List (Snap K)) (o : Snap K) (r : Nat)
    (hr : r < h.length) : hRead (h ++ [o]) r = hRead h r := by
  unfold hRead
  rw [List.getD_append _ _ _ _ hr]

theorem hRead_set_ne {K : Type} (h : List (Snap K)) (o : Snap K) (r r2 : Nat)
    (hne : r ≠ r2) : hRead (h.set r o) r2 = hRead h r2 := by
  unfold hRead
  rw [List.getD_eq_getElem?_getD, List.getElem?_set_ne hne, ← List.getD_eq_getElem?_getD]

theorem subscribe_mem {D : Type} (id : Nat) (w : Store D) (h : id ∈ w.listeners) :
    subscribe id w = w := by
  unfold subscribe
  rw [if_pos h]

theorem hUpdates_read {K : Type} (s : HState K) (ps : List (Patch K)) (r : Nat)
    (hr : r < s.heap.length) : hRead (hUpdates s ps).heap r = hRead s.heap r := by
  induction ps generalizing s with
  | nil => rfl
  | cons p rest ih =>
      have hr' : r < (hUpdate s p).heap.length := by
        simpa [hUpdate] using Nat.lt_succ_of_lt hr
      calc hRead (hUpdates (hUpdate s p) rest).heap r
          = hRead (hUpdate s p).heap r := ih _ hr'
        _ = hRead s.heap r := hRead_alloc_prev _ _ r hr

theorem update_single_check {K : Type} (env : Env (Snap K)) (i : Nat) (k : K)
    (p : Patch K) (w : Store (Snap K)) (h : env i = .check (fun s => s k) .nop)
    (hl : w.listeners = [i]) (hm : w.memo i = w.data k) :
    (update env p w).trace =
      (if objectIs (w.data k) (shallowMerge w.data p k) then [Ev.invoke i]
       else [Ev.invoke i, Ev.consume i]) := by
  have hcore := emitLoop_single_check env i (fun s => s k)
    { w with data := shallowMerge w.data p } h hl
  rw [update, emitChange, hcore, hm]

/-! ## Claim theorems -/

/-- C1: shallow-merge correctness of `update` — for every snapshot `S`
and patch `P`, after `update(P)` the container's snapshot has, for every
key present in `P`, `P`'s value, and for every key absent from `P`, the
value that key had in `S` before the call (whatever the registered
listeners do during the broadcast). -/
theorem update_shallowMerge_correct {K : Type} (env : Env (Snap K)) (p : Patch K)
    (w : Store (Snap K)) (k : K) :
    (∀ v, p k = some v → (update env p w).store.data k = v) ∧
      (p k = none → (update env p w).store.data k = w.data k) := by
  have hd : (update env p w).store.data = shallowMerge w.data p :=
    emitLoop_data env _ _
  constructor
  · intro v hv
    rw [hd]
    simp [shallowMerge, hv]
  · intro hv
    rw [hd]
    simp [shallowMerge, hv]

/-- Witness for C1 on the counter store: the patch `{count: 5}` sets
`count` to `5` and preserves `step`. -/
theorem update_shallowMerge_correct_witness :
    (countPatch (JSValue.int 5) CKey.count = some (JSValue.int 5) ∧
        (update counterEnv (countPatch (JSValue.int 5)) counterStore).store.data
          CKey.count = JSValue.int 5) ∧
      (countPatch (JSValue.int 5) CKey.step = none ∧
        (update counterEnv (countPatch (JSValue.int 5)) counterStore).store.data
          CKey.step = counterStore.data CKey.step) :=
  ⟨⟨rfl, (update_shallowMerge_correct counterEnv (countPatch (JSValue.int 5))
      counterStore CKey.count).1 (JSValue.int 5) rfl⟩,
    ⟨rfl, (update_shallowMerge_correct counterEnv (countPatch (JSValue.int 5))
      counterStore CKey.step).2 rfl⟩⟩

/-- C2: selector-level change suppression — a `checkForChange` closure
compares the memoized previous projection with the fresh projection via
`Object.is` (NaN equal to NaN, `+0` distinct from `-0`, reference
identity for objects); it notifies the consumer and updates the memo
exactly when they differ and does nothing when they are equal; for a
subscription selecting a primitive field, an `update` that leaves that
field's value unchanged does not invoke the consumer and one that
changes it invokes it exactly once. -/
theorem selector_change_suppression {D : Type} (env : Env D) (id : Nat)
    (sel : D → JSValue) (w : Store D) (h : env id = .check sel .nop) :
    ((runListener env id w).trace =
        (if objectIs (w.memo id) (sel w.data) then [Ev.invoke id]
         else [Ev.invoke id, Ev.consume id])) ∧
      ((runListener env id w).store.memo id =
        (if objectIs (w.memo id) (sel w.data) then w.memo id else sel w.data)) ∧
      (runListener env id w).threw = false ∧
      (runListener env id w).store.listeners = w.listeners ∧
      (runListener env id w).store.data = w.data ∧
      (∀ (K : Type) (env2 : Env (Snap K)) (i : Nat) (k : K) (p : Patch K)
          (w2 : Store (Snap K)),
        env2 i = .check (fun s => s k) .nop → w2.listeners = [i] →
          w2.memo i = w2.data k →
          (update env2 p w2).trace =
            (if objectIs (w2.data k) (shallowMerge w2.data p k) then [Ev.invoke i]
             else [Ev.invoke i, Ev.consume i])) ∧
      objectIs JSValue.nan JSValue.nan = true ∧
      objectIs JSValue.posZero JSValue.negZero = false ∧
      (∀ i j : Nat, objectIs (JSValue.obj i) (JSValue.obj j) = decide (i = j)) := by
  refine ⟨?_, ?_, ?_, ?_, ?_, ?_, rfl, rfl, ?_⟩
  · unfold runListener
    rw [h]
    dsimp only
    by_cases hc : objectIs (w.memo id) (sel w.data) = true
    · simp [hc]
    · simp [hc, runAction]
  · unfold runListener
    rw [h]
    dsimp only
    by_cases hc : objectIs (w.memo id) (sel w.data) = true
    · simp [hc]
    · simp [hc, runAction]
  · unfold runListener
    rw [h]
    dsimp only
    by_cases hc : objectIs (w.memo id) (sel w.data) = true
    · simp [hc]
    · simp [hc, runAction]
  · unfold runListener
    rw [h]
    dsimp only
    by_cases hc : objectIs (w.memo id) (sel w.data) = true
    · simp [hc]
    · simp [hc, runAction]
  · unfold runListener
    rw [h]
    dsimp only
    by_cases hc : objectIs (w.memo id) (sel w.data) = true
    · simp [hc]
    · simp [hc, runAction]
  · intro K env2 i k p w2 h2 hl2 hm2
    exact update_single_check env2 i k p w2 h2 hl2 hm2
  · intro i j
    unfold objectIs
    by_cases hij : i = j
    · subst hij; simp
    · simp [hij]

/-- Witness for C2: the `count` subscription on the counter store, and a
concrete `update({count: 3})` against the single-subscription store. -/
theorem selector_change_suppression_witness :
    counterEnv 0 = .check countSelector Action.nop ∧
      ((runListener counterEnv 0 counterStore).trace =
        (if objectIs (counterStore.memo 0) (countSelector counterStore.data)
          then [Ev.invoke 0] else [Ev.invoke 0, Ev.consume 0])) ∧
      ((update counterEnv (countPatch (JSValue.int 3)) countOnlyStore).trace =
        (if objectIs (countOnlyStore.data CKey.count)
            (shallowMerge countOnlyStore.data (countPatch (JSValue.int 3)) CKey.count)
          then [Ev.invoke 0] else [Ev.invoke 0, Ev.consume 0])) :=
  ⟨rfl,
    (selector_change_suppression counterEnv 0 countSelector counterStore rfl).1,
    (selector_change_suppression counterEnv 0 countSelector counterStore
        rfl).2.2.2.2.2.1 CKey counterEnv 0 CKey.count (countPatch (JSValue.int 3))
      countOnlyStore rfl rfl rfl⟩

/-- C3: broadcast completeness and unconditional fan-out — for a
container whose registered listeners neither throw nor mutate the
listener set, every `update` call (with any patch whatsoever, including
one that changes no field value) invokes each registered listener
exactly once, in registration order, and the container itself performs
no equality check and never throws. -/
theorem update_broadcast_complete {K : Type} (env : Env (Snap K)) (p : Patch K)
    (w : Store (Snap K)) (hcalm : ∀ id ∈ w.listeners, (env id).calm = true)
    (hnd : w.listeners.Nodup) :
    invokedIds (update env p w).trace = w.listeners ∧
      (∀ id ∈ w.listeners, (invokedIds (update env p w).trace).count id = 1) ∧
      (update env p w).threw = false := by
  obtain ⟨h1, _h2, h3⟩ := emitLoop_calm env w.listeners
    { w with data := shallowMerge w.data p } hcalm (fun id h => h)
  refine ⟨h1, ?_, h3⟩
  intro id hid
  have h1' : invokedIds (update env p w).trace = w.listeners := h1
  rw [h1']
  exact List.count_eq_one_of_mem hnd hid

/-- Witness for C3: the counter store with its two selector
subscriptions and the no-op patch. -/
theorem update_broadcast_complete_witness :
    (∀ id ∈ counterStore.listeners, (counterEnv id).calm = true) ∧
      counterStore.listeners.Nodup ∧
      invokedIds (update counterEnv (fun _ => none) counterStore).trace =
        counterStore.listeners ∧
      (update counterEnv (fun _ => none) counterStore).threw = false :=
  ⟨by decide, by decide,
    (update_broadcast_complete counterEnv (fun _ => none) counterStore
      (by decide) (by decide)).1,
    (update_broadcast_complete counterEnv (fun _ => none) counterStore
      (by decide) (by decide)).2.2⟩

/-- C4: read/write hook round-trip — for the hook built from
`s => s.count` and `(v, _s) => ({count: v})`, `setValue` reads the
container's snapshot at call time, applies the setter to it and passes
the resulting patch to `update`; after `setValue(5)` the projected value
reads `5`; `setValue(3)` then `setValue(7)` reads `7` (last write wins)
and delivers exactly two notifications to the `count` subscriber. -/
theorem createHook_roundTrip :
    (∀ (K : Type) (env : Env (Snap K)) (setter : JSValue → Snap K → Patch K)
        (v : JSValue) (w : Store (Snap K)),
      setValue env setter v w = update env (setter v (getSnapshot w)) w) ∧
      (∀ (env : Env (Snap CKey)) (v : JSValue) (w : Store (Snap CKey)),
        countSelector (getSnapshot (setValue env countSetter v w).store) = v) ∧
      (∀ (env : Env (Snap CKey)) (v1 v2 : JSValue) (w : Store (Snap CKey)),
        countSelector (getSnapshot
          (setValue env countSetter v2
            (setValue env countSetter v1 w).store).store) = v2) ∧
      countSelector (getSnapshot
        (setValue counterEnv countSetter (JSValue.int 5) counterStore).store) =
        JSValue.int 5 ∧
      countSelector (getSnapshot
        (setValue counterEnv countSetter (JSValue.int 7)
          (setValue counterEnv countSetter (JSValue.int 3)
            counterStore).store).store) = JSValue.int 7 ∧
      consumeCount 0
        ((setValue counterEnv countSetter (JSValue.int 3) counterStore).trace ++
          (setValue counterEnv countSetter (JSValue.int 7)
            (setValue counterEnv countSetter (JSValue.int 3)
              counterStore).store).trace) = 2 := by
  have hread : ∀ (env : Env (Snap CKey)) (v : JSValue) (w : Store (Snap CKey)),
      countSelector (getSnapshot (setValue env countSetter v w).store) = v := by
    intro env v w
    show (setValue env countSetter v w).store.data CKey.count = v
    have hd := emitLoop_data env
      ({ w with data := shallowMerge w.data (countSetter v w.data) } :
        Store (Snap CKey)).listeners
      { w with data := shallowMerge w.data (countSetter v w.data) }
    exact (congrFun hd CKey.count).trans rfl
  refine ⟨fun K env setter v w => rfl, hread, ?_, ?_, ?_, ?_⟩
  · intro env v1 v2 w
    exact hread env v2 _
  · exact hread counterEnv (JSValue.int 5) counterStore
  · exact hread counterEnv (JSValue.int 7) _
  · decide

/-- C5: unsubscribe semantics — on a container whose listener set holds
no duplicates (the `Set` invariant), (1) calling the returned
unsubscribe function twice has the same effect as calling it once;
(2) after a single unsubscribe the listener is not invoked by any
subsequent `update`; (3) a raw listener that unsubscribes a
not-yet-visited listener during the broadcast of the same `update` does
not make the broadcast throw, and the removed listener is not invoked
after its removal. -/
theorem unsubscribe_semantics {K : Type} (env : Env (Snap K)) (w : Store (Snap K))
    (id : Nat) (hnd : w.listeners.Nodup) :
    unsubscribe id (unsubscribe id w) = unsubscribe id w ∧
      (∀ (ps : List (Patch K)) (p : Patch K),
        id ∉ invokedIds
          (update env p (runUpdates env ps (unsubscribe id w))).trace) ∧
      (∀ (a b : Nat) (l1 l2 : List Nat) (p : Patch K),
        w.listeners = l1 ++ a :: l2 → env a = .act (.unsub b) → b ∈ l2 →
          (∀ j ∈ l1, (env j).calm = true) → (∀ j ∈ l2, (env j).calm = true) →
          (update env p w).threw = false ∧
            b ∉ invokedIds (update env p w).trace) := by
  have hni : id ∉ w.listeners.erase id := fun hmem =>
    ((List.Nodup.mem_erase_iff hnd).mp hmem).1 rfl
  refine ⟨?_, ?_, ?_⟩
  · have herase : (w.listeners.erase id).erase id = w.listeners.erase id :=
      List.erase_of_not_mem hni
    simp [unsubscribe, herase]
  · intro ps p
    exact update_not_mem_not_invoked env p _ id (runUpdates_not_mem env ps _ id hni)
  · intro a b l1 l2 p hw ha hbmem hcalm1 hcalm2
    have hnd' : (l1 ++ a :: l2).Nodup := hw ▸ hnd
    have hwl : ({ w with data := shallowMerge w.data p } :
        Store (Snap K)).listeners = l1 ++ a :: l2 := hw
    have hupd : update env p w =
        emitLoop env (l1 ++ a :: l2) { w with data := shallowMerge w.data p } := by
      show emitLoop env ({ w with data := shallowMerge w.data p } :
        Store (Snap K)).listeners _ = _
      rw [hwl]
    obtain ⟨hr1i, hr1l, hr1t⟩ := emitLoop_calm env l1
      { w with data := shallowMerge w.data p } hcalm1
      (fun j hj => by rw [hwl]; exact List.mem_append_left _ hj)
    have hamem : a ∈ (emitLoop env l1
        { w with data := shallowMerge w.data p }).store.listeners := by
      rw [hr1l, hwl]
      exact List.mem_append_right _ (List.mem_cons_self a l2)
    have hrl : runListener env a
        (emitLoop env l1 { w with data := shallowMerge w.data p }).store =
        ⟨[Ev.invoke a],
          { (emitLoop env l1 { w with data := shallowMerge w.data p }).store with
            listeners := (emitLoop env l1
              { w with data := shallowMerge w.data p }).store.listeners.erase b },
          false⟩ := by
      unfold runListener
      rw [ha]
      rfl
    have hstep : emitLoop env (a :: l2)
        (emitLoop env l1 { w with data := shallowMerge w.data p }).store =
        ⟨[Ev.invoke a] ++
            (emitLoop env l2
              { (emitLoop env l1 { w with data := shallowMerge w.data p }).store with
                listeners := (emitLoop env l1
                  { w with data := shallowMerge w.data p
                    }).store.listeners.erase b }).trace,
          (emitLoop env l2
            { (emitLoop env l1 { w with data := shallowMerge w.data p }).store with
              listeners := (emitLoop env l1
                { w with data := shallowMerge w.data p
                  }).store.listeners.erase b }).store,
          (emitLoop env l2
            { (emitLoop env l1 { w with data := shallowMerge w.data p }).store with
              listeners := (emitLoop env l1
                { w with data := shallowMerge w.data p
                  }).store.listeners.erase b }).threw⟩ := by
      rw [emitLoop_cons, if_pos hamem, hrl]
      rfl
    have hbout : b ∉ ({ (emitLoop env l1
        { w with data := shallowMerge w.data p }).store with
          listeners := (emitLoop env l1
            { w with data := shallowMerge w.data p }).store.listeners.erase b } :
        Store (Snap K)).listeners := by
      show b ∉ (emitLoop env l1
        { w with data := shallowMerge w.data p }).store.listeners.erase b
      rw [hr1l, hwl]
      intro hmem
      exact ((List.Nodup.mem_erase_iff hnd').mp hmem).1 rfl
    have hbl1 : b ∉ l1 := fun hb1 =>
      (List.nodup_append.mp hnd').2.2 hb1 (List.mem_cons_of_mem a hbmem)
    have hba : b ≠ a := by
      intro hba
      exact (List.nodup_cons.mp (List.nodup_append.mp hnd').2.1).1 (hba ▸ hbmem)
    rw [hupd, emitLoop_append, if_neg (by rw [hr1t]; exact Bool.false_ne_true), hstep]
    dsimp only
    obtain ⟨-, hr2t⟩ := emitLoop_calm_noThrow env l2 _ hcalm2
    refine ⟨hr2t, ?_⟩
    intro hmem
    rw [invokedIds_append, invokedIds_append] at hmem
    rcases List.mem_append.mp hmem with h | h
    · exact hbl1 (hr1i ▸ h)
    rcases List.mem_append.mp h with h | h
    · have : b = a := by simpa [invokedIds] using h
      exact hba this
    · exact emitLoop_removed_not_invoked env l2 _ b hbout h

/-- Witness for C5: listener 0 unsubscribes listener 2 mid-broadcast on
the two-raw-listener store. -/
theorem unsubscribe_semantics_witness :
    unsubStore.listeners.Nodup ∧
      unsubscribe 2 (unsubscribe 2 unsubStore) = unsubscribe 2 unsubStore ∧
      2 ∉ invokedIds
        (update unsubEnv (fun _ => none)
          (runUpdates unsubEnv [] (unsubscribe 2 unsubStore))).trace ∧
      ((update unsubEnv (fun _ => none) unsubStore).threw = false ∧
        2 ∉ invokedIds (update unsubEnv (fun _ => none) unsubStore).trace) :=
  ⟨by decide,
    (unsubscribe_semantics unsubEnv unsubStore 2 (by decide)).1,
    (unsubscribe_semantics unsubEnv unsubStore 2 (by decide)).2.1 [] (fun _ => none),
    (unsubscribe_semantics unsubEnv unsubStore 2 (by decide)).2.2 0 2 [] [2]
      (fun _ => none) rfl rfl (by decide) (by decide) (by decide)⟩

/-- C6: exception propagation during notification — when the listener
`t` throws during the notification pass of an `update` (and the
listeners before it are calm), the exception escapes from `update`,
notification stops right after the throwing listener (exactly the
listeners up to and including `t` were invoked), and the snapshot has
already been fully replaced by the merged value; with only calm
listeners no container operation throws. -/
theorem update_exception_propagation {K : Type} (env : Env (Snap K)) (p : Patch K)
    (w : Store (Snap K)) (t : Nat) (l1 l2 : List Nat)
    (hw : w.listeners = l1 ++ t :: l2)
    (ht : env t = .act .throwErr)
    (hcalm1 : ∀ j ∈ l1, (env j).calm = true) :
    (update env p w).threw = true ∧
      invokedIds (update env p w).trace = l1 ++ [t] ∧
      (update env p w).store.data = shallowMerge w.data p ∧
      (∀ (env2 : Env (Snap K)) (p2 : Patch K) (w2 : Store (Snap K)),
        (∀ j ∈ w2.listeners, (env2 j).calm = true) →
          (update env2 p2 w2).threw = false) := by
  have hwl : ({ w with data := shallowMerge w.data p } :
      Store (Snap K)).listeners = l1 ++ t :: l2 := hw
  have hupd : update env p w =
      emitLoop env (l1 ++ t :: l2) { w with data := shallowMerge w.data p } := by
    show emitLoop env ({ w with data := shallowMerge w.data p } :
      Store (Snap K)).listeners _ = _
    rw [hwl]
  obtain ⟨hr1i, hr1l, hr1t⟩ := emitLoop_calm env l1
    { w with data := shallowMerge w.data p } hcalm1
    (fun j hj => by rw [hwl]; exact List.mem_append_left _ hj)
  have htmem : t ∈ (emitLoop env l1
      { w with data := shallowMerge w.data p }).store.listeners := by
    rw [hr1l, hwl]
    exact List.mem_append_right _ (List.mem_cons_self t l2)
  have hrt : runListener env t
      (emitLoop env l1 { w with data := shallowMerge w.data p }).store =
      ⟨[Ev.invoke t],
        (emitLoop env l1 { w with data := shallowMerge w.data p }).store, true⟩ := by
    unfold runListener
    rw [ht]
    rfl
  have hstep : emitLoop env (t :: l2)
      (emitLoop env l1 { w with data := shallowMerge w.data p }).store =
      ⟨[Ev.invoke t],
        (emitLoop env l1 { w with data := shallowMerge w.data p }).store, true⟩ := by
    rw [emitLoop_cons, if_pos htmem, hrt]
    rfl
  have hkey : update env p w =
      ⟨(emitLoop env l1 { w with data := shallowMerge w.data p }).trace ++
          [Ev.invoke t],
        (emitLoop env l1 { w with data := shallowMerge w.data p }).store, true⟩ := by
    rw [hupd, emitLoop_append, if_neg (by rw [hr1t]; exact Bool.false_ne_true), hstep]
  refine ⟨?_, ?_, ?_, ?_⟩
  · rw [hkey]
  · rw [hkey]
    dsimp only
    rw [invokedIds_append, hr1i]
    rfl
  · exact emitLoop_data env _ _
  · intro env2 p2 w2 hcalm
    exact (emitLoop_calm_noThrow env2 w2.listeners _ hcalm).2

/-- Witness for C6: listener 1 throws among raw listeners `[0, 1, 2]`. -/
theorem update_exception_propagation_witness :
    throwStore.listeners = [0] ++ 1 :: [2] ∧
      (update throwEnv (fun _ => none) throwStore).threw = true ∧
      invokedIds (update throwEnv (fun _ => none) throwStore).trace = [0] ++ [1] ∧
      (update throwEnv (fun _ => none) throwStore).store.data =
        shallowMerge throwStore.data (fun _ => none) ∧
      (update counterEnv (fun _ => none) counterStore).threw = false :=
  ⟨rfl,
    (update_exception_propagation throwEnv (fun _ => none) throwStore 1 [0] [2]
      rfl rfl (by decide)).1,
    (update_exception_propagation throwEnv (fun _ => none) throwStore 1 [0] [2]
      rfl rfl (by decide)).2.1,
    (update_exception_propagation throwEnv (fun _ => none) throwStore 1 [0] [2]
      rfl rfl (by decide)).2.2.1,
    (update_exception_propagation throwEnv (fun _ => none) throwStore 1 [0] [2]
      rfl rfl (by decide)).2.2.2 counterEnv (fun _ => none) counterStore
      (by decide)⟩

/-- C7: snapshot immutability and constructor copying — the constructor
allocates a fresh object (not an alias of the caller's object), so
mutating the caller's object afterwards leaves the container's snapshot
reading its original field values; `update` allocates a fresh snapshot
object and never mutates the previous one, so any previously obtained
snapshot reference reads the same field values after one or any number
of `update` calls. -/
theorem snapshot_immutability {K : Type} [DecidableEq K] (h : List (Snap K))
    (initRef : Nat) (hval : initRef < h.length) (s : HState K)
    (hsval : s.dataRef < s.heap.length) (p : Patch K) (k : K) (v : JSValue)
    (ps : List (Patch K)) (r : Nat) (hr : r < s.heap.length) :
    (hConstruct h initRef).dataRef ≠ initRef ∧
      hRead (hMutate (hConstruct h initRef) initRef k v).heap
        (hConstruct h initRef).dataRef = hRead h initRef ∧
      (hUpdate s p).dataRef ≠ s.dataRef ∧
      (hUpdate s p).dataRef < (hUpdate s p).heap.length ∧
      hRead (hUpdate s p).heap r = hRead s.heap r ∧
      hRead (hUpdates s ps).heap r = hRead s.heap r := by
  refine ⟨(Nat.ne_of_lt hval).symm, ?_, (Nat.ne_of_lt hsval).symm, ?_, ?_, ?_⟩
  · exact (hRead_set_ne _ _ initRef h.length (Nat.ne_of_lt hval)).trans
      (hRead_alloc_last h _)
  · simp [hUpdate]
  · exact hRead_alloc_prev _ _ r hr
  · exact hUpdates_read s ps r hr

/-- Witness for C7: a one-object heap holding the counter state. -/
theorem snapshot_immutability_witness :
    (0 : Nat) < [counterInit].length ∧
      (hConstruct [counterInit] 0).dataRef ≠ 0 ∧
      hRead (hMutate (hConstruct [counterInit] 0) 0 CKey.count (JSValue.int 9)).heap
        (hConstruct [counterInit] 0).dataRef = hRead [counterInit] 0 ∧
      (hUpdate (⟨[counterInit], 0⟩ : HState CKey) (countPatch (JSValue.int 5))).dataRef
        ≠ 0 ∧
      hRead (hUpdates (⟨[counterInit], 0⟩ : HState CKey)
        [countPatch (JSValue.int 5), stepPatch (JSValue.int 2)]).heap 0 =
        hRead [counterInit] 0 :=
  ⟨by decide,
    (snapshot_immutability [counterInit] 0 (by decide) ⟨[counterInit], 0⟩
      (by decide) (countPatch (JSValue.int 5)) CKey.count (JSValue.int 9)
      [countPatch (JSValue.int 5), stepPatch (JSValue.int 2)] 0 (by decide)).1,
    (snapshot_immutability [counterInit] 0 (by decide) ⟨[counterInit], 0⟩
      (by decide) (countPatch (JSValue.int 5)) CKey.count (JSValue.int 9)
      [countPatch (JSValue.int 5), stepPatch (JSValue.int 2)] 0 (by decide)).2.1,
    (snapshot_immutability [counterInit] 0 (by decide) ⟨[counterInit], 0⟩
      (by decide) (countPatch (JSValue.int 5)) CKey.count (JSValue.int 9)
      [countPatch (JSValue.int 5), stepPatch (JSValue.int 2)] 0 (by decide)).2.2.1,
    (snapshot_immutability [counterInit] 0 (by decide) ⟨[counterInit], 0⟩
      (by decide) (countPatch (JSValue.int 5)) CKey.count (JSValue.int 9)
      [countPatch (JSValue.int 5), stepPatch (JSValue.int 2)] 0
      (by decide)).2.2.2.2.2⟩

/-- C8: listener-set uniqueness by identity — subscribing the same
listener twice leaves the container exactly as one subscription does
(the `Set` never holds a duplicate, and no-duplicates is preserved);
each update still invokes that listener exactly once; and a single
unsubscribe call removes it entirely, after which a second unsubscribe
is a no-op. -/
theorem listener_set_unique {K : Type} (env : Env (Snap K)) (p : Patch K)
    (w : Store (Snap K)) (id : Nat) (hnd : w.listeners.Nodup) :
    subscribe id (subscribe id w) = subscribe id w ∧
      (subscribe id w).listeners.Nodup ∧
      ((∀ j ∈ (subscribe id w).listeners, (env j).calm = true) →
        (invokedIds (update env p (subscribe id w)).trace).count id = 1) ∧
      id ∉ (unsubscribe id (subscribe id w)).listeners ∧
      unsubscribe id (unsubscribe id (subscribe id w)) =
        unsubscribe id (subscribe id w) := by
  have hmem : id ∈ (subscribe id w).listeners := by
    by_cases hw : id ∈ w.listeners
    · simp [subscribe, hw]
    · simp [subscribe, hw]
  have hnd2 : (subscribe id w).listeners.Nodup := by
    by_cases hw : id ∈ w.listeners
    · simpa [subscribe, hw] using hnd
    · simp only [subscribe, if_neg hw]
      rw [List.nodup_append]
      exact ⟨hnd, List.nodup_singleton id, fun a ha hai =>
        hw ((List.mem_singleton.mp hai) ▸ ha)⟩
  have hout : id ∉ (unsubscribe id (subscribe id w)).listeners := fun hmem2 =>
    ((List.Nodup.mem_erase_iff hnd2).mp hmem2).1 rfl
  refine ⟨subscribe_mem id (subscribe id w) hmem, hnd2, ?_, hout, ?_⟩
  · intro hcalm
    obtain ⟨h1, -, -⟩ := emitLoop_calm env (subscribe id w).listeners
      { subscribe id w with data := shallowMerge (subscribe id w).data p } hcalm
      (fun j hj => hj)
    have h1' : invokedIds (update env p (subscribe id w)).trace =
        (subscribe id w).listeners := h1
    rw [h1']
    exact List.count_eq_one_of_mem hnd2 hmem
  · have herase : ((subscribe id w).listeners.erase id).erase id =
        (subscribe id w).listeners.erase id :=
      List.erase_of_not_mem hout
    simp [unsubscribe, herase]

/-- Witness for C8: double subscription of listener 3 on the counter
store. -/
theorem listener_set_unique_witness :
    counterStore.listeners.Nodup ∧
      subscribe 3 (subscribe 3 counterStore) = subscribe 3 counterStore ∧
      (subscribe 3 counterStore).listeners.Nodup ∧
      (invokedIds (update counterEnv (fun _ => none)
        (subscribe 3 counterStore)).trace).count 3 = 1 ∧
      3 ∉ (unsubscribe 3 (subscribe 3 counterStore)).listeners :=
  ⟨by decide,
    (listener_set_unique counterEnv (fun _ => none) counterStore 3 (by decide)).1,
    (listener_set_unique counterEnv (fun _ => none) counterStore 3 (by decide)).2.1,
    (listener_set_unique counterEnv (fun _ => none) counterStore 3
      (by decide)).2.2.1 (by decide),
    (listener_set_unique counterEnv (fun _ => none) counterStore 3
      (by decide)).2.2.2.1⟩

/-- C9: `subscribeWithSelector` is a derived operation — it registers
exactly one raw listener through `subscribe` (its effect on the listener
set is exactly `subscribe`'s, its returned unsubscribe function is
`subscribe`'s unsubscribe, and it touches nothing but the one memo
slot), and the registered `checkForChange` closure behaves exactly as
the spec's §4.2 change-detection wrapper `specCheckStep`. -/
theorem subscribeWithSelector_derived {D : Type} (env : Env D) (sel : D → JSValue)
    (id : Nat) (w : Store D) (h : env id = .check sel .nop) :
    subscribeWithSelector sel id w =
        subscribe id
          { w with memo := fun j => if j = id then sel w.data else w.memo j } ∧
      (subscribeWithSelector sel id w).listeners = (subscribe id w).listeners ∧
      (subscribeWithSelector sel id w).data = w.data ∧
      (∀ j, j ≠ id → (subscribeWithSelector sel id w).memo j = w.memo j) ∧
      (id ∉ w.listeners →
        (subscribeWithSelector sel id w).listeners = w.listeners ++ [id]) ∧
      (unsubscribe id (subscribeWithSelector sel id w)).listeners =
        (unsubscribe id (subscribe id w)).listeners ∧
      (runListener env id w).trace =
        Ev.invoke id ::
          (if (specCheckStep sel (w.memo id) w.data).2 then [Ev.consume id]
           else []) ∧
      (runListener env id w).store.memo id = (specCheckStep sel (w.memo id) w.data).1 := by
  refine ⟨rfl, rfl, rfl, ?_, ?_, rfl, ?_, ?_⟩
  · intro j hj
    simp [subscribeWithSelector, subscribe, hj]
  · intro hni
    simp [subscribeWithSelector, subscribe, hni]
  · unfold runListener specCheckStep
    rw [h]
    dsimp only
    by_cases hc : objectIs (w.memo id) (sel w.data) = true
    · simp [hc]
    · simp [hc, runAction]
  · unfold runListener specCheckStep
    rw [h]
    dsimp only
    by_cases hc : objectIs (w.memo id) (sel w.data) = true
    · simp [hc]
    · simp [hc, runAction]

/-- Witness for C9: the `count` subscription registered on an empty
container. -/
theorem subscribeWithSelector_derived_witness :
    counterEnv 0 = .check countSelector Action.nop ∧
      (subscribeWithSelector countSelector 0
        (⟨counterInit, [], fun _ => JSValue.undef⟩ : Store (Snap CKey))).listeners =
        (subscribe 0
          (⟨counterInit, [], fun _ => JSValue.undef⟩ : Store (Snap CKey))).listeners ∧
      (subscribeWithSelector countSelector 0
          (⟨counterInit, [], fun _ => JSValue.undef⟩ : Store (Snap CKey))).memo 1 =
        JSValue.undef ∧
      (subscribeWithSelector countSelector 0
          (⟨counterInit, [], fun _ => JSValue.undef⟩ : Store (Snap CKey))).listeners =
        [] ++ [0] ∧
      (runListener counterEnv 0 counterStore).store.memo 0 =
        (specCheckStep countSelector (counterStore.memo 0) counterStore.data).1 :=
  ⟨rfl,
    (subscribeWithSelector_derived counterEnv countSelector 0
      ⟨counterInit, [], fun _ => JSValue.undef⟩ rfl).2.1,
    (subscribeWithSelector_derived counterEnv countSelector 0
      ⟨counterInit, [], fun _ => JSValue.undef⟩ rfl).2.2.2.1 1 (by decide),
    (subscribeWithSelector_derived counterEnv countSelector 0
      ⟨counterInit, [], fun _ => JSValue.undef⟩ rfl).2.2.2.2.1 (by decide),
    (subscribeWithSelector_derived counterEnv countSelector 0 counterStore
      rfl).2.2.2.2.2.2.2⟩

/-- C10: every `update` call allocates a fresh snapshot object that is
never `Object.is`-equal to the previous snapshot — even when the patch
changes nothing — so a subscription whose selector is the identity
function has its consumer listener invoked on every single `update`
call, with no suppression. -/
theorem update_fresh_object {K : Type} (env : Env (HState K)) (p : Patch K)
    (w : Store (HState K)) (i : Nat)
    (hval : w.data.dataRef < w.data.heap.length)
    (henv : env i = .check idSelector .nop)
    (hl : w.listeners = [i])
    (hm : w.memo i = JSValue.obj w.data.dataRef) :
    (hUpdate w.data p).dataRef ≠ w.data.dataRef ∧
      objectIs (JSValue.obj w.data.dataRef)
        (JSValue.obj (hUpdate w.data p).dataRef) = false ∧
      (hUpdateW env p w).trace = [Ev.invoke i, Ev.consume i] := by
  have hne : w.data.dataRef ≠ (hUpdate w.data p).dataRef := Nat.ne_of_lt hval
  have hfalse : objectIs (JSValue.obj w.data.dataRef)
      (JSValue.obj (hUpdate w.data p).dataRef) = false := by
    apply decide_eq_false
    intro hcontra
    injection hcontra with h'
    exact hne h'
  refine ⟨hne.symm, hfalse, ?_⟩
  have hcore := emitLoop_single_check env i idSelector
    { w with data := hUpdate w.data p } henv hl
  have htr : (hUpdateW env p w).trace =
      (if objectIs (w.memo i) (JSValue.obj (hUpdate w.data p).dataRef)
       then [Ev.invoke i] else [Ev.invoke i, Ev.consume i]) := hcore
  rw [htr, hm, hfalse]
  rfl

/-- Witness for C10: the identity-selector subscription on the
one-object heap store; the no-op patch still notifies the consumer. -/
theorem update_fresh_object_witness :
    idStore.data.dataRef < idStore.data.heap.length ∧
      (hUpdate idStore.data (fun _ => none)).dataRef ≠ idStore.data.dataRef ∧
      objectIs (JSValue.obj idStore.data.dataRef)
        (JSValue.obj (hUpdate idStore.data (fun _ => none)).dataRef) = false ∧
      (hUpdateW idEnv (fun _ => none) idStore).trace =
        [Ev.invoke 5, Ev.consume 5] :=
  ⟨by decide,
    (update_fresh_object idEnv (fun _ => none) idStore 5 (by decide) rfl rfl
      rfl).1,
    (update_fresh_object idEnv (fun _ => none) idStore 5 (by decide) rfl rfl
      rfl).2.1,
    (update_fresh_object idEnv (fun _ => none) idStore 5 (by decide) rfl rfl
      rfl).2.2⟩

end Bonsai
